import Mathlib

/-!
Verification development for the bifinance-mevbot repository: a shallow
embedding of the EVM provider RPC dispatcher (`src/evm/provider/evm-provider.ts`)
and of the contract facade (`src/contract/contract.ts`), together with theorems
settling the specification claims about them.

Addresses are modelled as natural numbers (20-byte identifiers), byte buffers as
lists of naturals below 256, and JavaScript exceptions as the `Except` monad.
-/

/-- JavaScript-style error raised by the provider layer: an `Error` with a
message (possibly empty), or one of the RPC error kinds named by the design
(`MethodNotFound`, `BadFilter`, `InvalidTransaction`). -/
inductive RpcError where
  | jsError : String → RpcError
  | methodNotFound : RpcError
  | badFilter : RpcError
  | invalidTransaction : RpcError
  deriving DecidableEq, Repr

/-- Hex digit character for a value below 16, lowercase as the formatters emit. -/
def hexDigitChar (n : Nat) : Char :=
  if n < 10 then Char.ofNat (48 + n) else Char.ofNat (87 + n)

/-- Minimal big-endian hex digits of `n`, no leading zeros (`0` gives `"0"`);
the first argument is recursion fuel, sufficient whenever it exceeds `n`. -/
def natToHexCore : Nat → Nat → List Char
  | 0, _ => []
  | fuel + 1, n =>
    if n < 16 then [hexDigitChar n]
    else natToHexCore fuel (n / 16) ++ [hexDigitChar (n % 16)]

/-- Modelled from the spec: `numberToHex` of the utils module (not under the
sources); quantities are encoded as minimal hex without leading zeros, with the
`0x` marker. -/
def numberToHex (n : Nat) : String :=
  "0x" ++ String.mk (natToHexCore (n + 1) n)

/-- Modelled from the spec: `bufferToHex` of the utils module (not under the
sources); byte strings are 0x-prefixed lowercase hex of exact length. -/
def bufferToHex (bytes : List Nat) : String :=
  "0x" ++ String.mk (bytes.foldr (fun b acc => hexDigitChar (b / 16 % 16) :: hexDigitChar (b % 16) :: acc) [])

/-- Fixed-width big-endian hex digits of `n` (width is the first argument). -/
def fixedHex : Nat → Nat → List Char
  | 0, _ => []
  | k + 1, n => fixedHex k (n / 16) ++ [hexDigitChar (n % 16)]

/-- Modelled from the spec: the transaction hash is a Keccak-256 digest rendered
as 0x-prefixed 32-byte hex. Keccak and the hashing path are not among the
sources, so the digest is modelled as the 64-hex-digit big-endian encoding of
the transaction sequence number, which keeps the properties the interface
states: a `0x` marker, exactly 32 bytes of hex, and a distinct hash per
transaction of one run. -/
def txHashHex (n : Nat) : String :=
  "0x" ++ String.mk (fixedHex 64 n)

/-- Account state: nonce, balance, storage map, code (spec data model). -/
structure Account where
  nonce : Nat
  balance : Nat
  storage : List (Nat × Nat)
  code : List Nat
  deriving DecidableEq, Repr, Inhabited

/-- World state: the account map (spec data model, world trie). -/
structure World where
  accounts : List (Nat × Account)
  deriving DecidableEq, Repr, Inhabited

/-- A log entry: emitting address, up to 4 topics, data bytes, and its position
in the chain (spec data model). -/
structure LogEntry where
  address : Nat
  topics : List Nat
  data : List Nat
  blockNumber : Nat
  logIndex : Nat
  deriving DecidableEq, Repr, Inhabited

/-- A transaction receipt (spec data model, reduced to the fields the dispatcher
claims touch). -/
structure Receipt where
  transactionHash : String
  status : Nat
  blockNumber : Nat
  logs : List LogEntry
  deriving DecidableEq, Repr, Inhabited

/-- A transaction request as submitted over RPC (spec data model). -/
structure TxRequest where
  fromAddr : Option Nat
  toAddr : Option Nat
  value : Nat
  gas : Nat
  gasPrice : Nat
  dataBytes : List Nat
  nonce : Option Nat
  deriving DecidableEq, Repr, Inhabited

/-- A call request for `eth_call` (spec data model). -/
structure CallRequest where
  fromAddr : Option Nat
  toAddr : Option Nat
  value : Nat
  gas : Nat
  gasPrice : Nat
  dataBytes : List Nat
  deriving DecidableEq, Repr, Inhabited

/-- A log filter: block range, optional address, topic slots where each slot is
absent (wildcard) or a set of admissible values (spec, blockchain queries). -/
structure LogFilter where
  fromBlock : Option Nat
  toBlock : Option Nat
  address : Option Nat
  topics : List (Option (List Nat))
  deriving DecidableEq, Repr, Inhabited

/-- A JSON-RPC parameter value, covering the dynamic shapes `send` receives. -/
inductive Param where
  | str : String → Param
  | num : Int → Param
  | boolv : Bool → Param
  | nullv : Param
  | txReq : TxRequest → Param
  | callReq : CallRequest → Param
  | logFilter : LogFilter → Param
  deriving DecidableEq, Repr, Inhabited

/-- JavaScript truthiness of a parameter value: `null`, `false`, `0` and the
empty string are falsy; objects are truthy. -/
def Param.truthy : Param → Bool
  | .str s => s.length != 0
  | .num n => n != 0
  | .boolv b => b
  | .nullv => false
  | .txReq _ => true
  | .callReq _ => true
  | .logFilter _ => true

/-- Truthiness of `params[0]` as the dispatcher tests it: falsy when the params
array is absent, empty, or starts with a falsy value. -/
def firstTruthy : Option (List Param) → Bool
  | none => false
  | some [] => false
  | some (p :: _) => p.truthy

/-- The first element of the params array (`null` when absent, as indexing past
the end of a JavaScript array yields a falsy undefined). -/
def firstParam : Option (List Param) → Param
  | some (p :: _) => p
  | _ => .nullv

/-- String content of a parameter (the empty string for non-strings). -/
def paramToString : Param → String
  | .str s => s
  | _ => ""

/-- Modelled from the spec: `fromRawTransactionRequest` of the formatters module
(not under the sources; formatters convert raw wire values to typed domain
values). At this level of abstraction it extracts the typed request. -/
def fromRawTransactionRequest : Param → TxRequest
  | .txReq t => t
  | _ => default

/-- Modelled from the spec: `fromRawCallRequest` of the formatters module (not
under the sources). -/
def fromRawCallRequest : Param → CallRequest
  | .callReq c => c
  | _ => default

/-- Modelled from the spec: `fromRawLogRequest` of the formatters module (not
under the sources). -/
def fromRawLogRequest : Param → LogFilter
  | .logFilter f => f
  | _ => default

/-- Value of a hex character (0 for non-hex characters). -/
def hexCharVal (c : Char) : Nat :=
  if 48 ≤ c.toNat ∧ c.toNat ≤ 57 then c.toNat - 48
  else if 97 ≤ c.toNat ∧ c.toNat ≤ 102 then c.toNat - 87
  else if 65 ≤ c.toNat ∧ c.toNat ≤ 70 then c.toNat - 55
  else 0

/-- Modelled from the spec: `Address.fromString` (not under the sources) —
parses a 0x-prefixed 20-byte hex address into its numeric value. -/
def addressFromString (s : String) : Nat :=
  (s.toList.drop 2).foldl (fun acc c => acc * 16 + hexCharVal c) 0

/-- The provider state: world state plus blockchain (receipts by transaction
hash, the log index, the latest block number) and the transaction count. -/
structure EvmProvider where
  world : World
  receipts : List (String × Receipt)
  logs : List LogEntry
  latestBlock : Nat
  txCount : Nat
  deriving DecidableEq, Repr, Inhabited

/-- Outcome of executing one transaction through the processor: status, emitted
logs, gas used, and the committed world state. -/
structure TxResult where
  status : Nat
  logs : List LogEntry
  gasUsed : Nat
  newWorld : World

/-- The EVM execution back ends the dispatcher delegates to (the interpreter and
transaction processor are not under the sources, so the dispatcher is verified
for every such back end). `execTx` returns `none` when the processor's
pre-flight validation rejects the transaction (bad nonce, insufficient funds —
the spec's `InvalidTransaction` path, which mutates nothing and appends no
block), and the execution outcome otherwise. `execCall` is a pure function of
the provider state: the spec runs calls against a throwaway overlay and commits
nothing. -/
structure EvmExec where
  execTx : EvmProvider → TxRequest → Option TxResult
  execCall : EvmProvider → CallRequest → List Nat

/-- Modelled from the spec: `handleSendTransaction` — a transaction rejected by
pre-flight validation fails with `InvalidTransaction` and neither mutates state
nor appends a block; an accepted transaction is executed immediately, the block
holding it and its receipt appended, its logs indexed, and the 0x-prefixed
transaction hash returned. -/
def handleSendTransaction (exec : EvmExec) (p : EvmProvider) (tx : TxRequest) :
    Except RpcError (String × EvmProvider) :=
  match exec.execTx p tx with
  | none => .error .invalidTransaction
  | some res =>
    let hash := txHashHex p.txCount
    let blockNum := p.latestBlock + 1
    let newLogs := res.logs.map fun l => { l with blockNumber := blockNum }
    let receipt : Receipt :=
      { transactionHash := hash, status := res.status, blockNumber := blockNum, logs := newLogs }
    .ok (hash,
      { p with
        world := res.newWorld
        receipts := (hash, receipt) :: p.receipts
        logs := p.logs ++ newLogs
        latestBlock := blockNum
        txCount := p.txCount + 1 })

/-- Modelled from the spec: `handleGetTransactionReceipt` — direct lookup in the
receipt-by-transaction-hash index; nothing when the hash is unknown. -/
def handleGetTransactionReceipt (p : EvmProvider) (hash : String) : Option Receipt :=
  p.receipts.lookup hash

/-- Modelled from the spec: `getAccountCode` of the world state — the code bytes
of the account, empty if absent. -/
def getAccountCode (p : EvmProvider) (addr : Nat) : List Nat :=
  match p.world.accounts.lookup addr with
  | some a => a.code
  | none => []

/-- Modelled from the spec: `handleCall` — runs the interpreter against a
throwaway overlay; the result is the returned data and no state is committed,
so it is a pure function of the provider state. -/
def handleCall (exec : EvmExec) (p : EvmProvider) (c : CallRequest) : List Nat :=
  exec.execCall p c

/-- Whether a topic slot of a filter admits the topic at the same position of a
log (an absent slot is a wildcard; a present slot is a set of values). -/
def topicSlotMatches (slot : Option (List Nat)) (t : Option Nat) : Bool :=
  match slot with
  | none => true
  | some vals =>
    match t with
    | some tv => vals.contains tv
    | none => false

/-- Whether a log entry satisfies a filter with resolved block range. -/
def logMatches (f : LogFilter) (fromB toB : Nat) (l : LogEntry) : Bool :=
  decide (fromB ≤ l.blockNumber) && decide (l.blockNumber ≤ toB) &&
  (match f.address with
   | none => true
   | some a => a == l.address) &&
  (List.range f.topics.length).all fun i => topicSlotMatches (f.topics.getD i none) l.topics[i]?

/-- Modelled from the spec: `getLogs` of the log query handler — evaluates a
filter over the log index; a range with `fromBlock > toBlock` fails with
`BadFilter`, otherwise the matching logs are returned in order. -/
def getLogs (p : EvmProvider) (f : LogFilter) : Except RpcError (List LogEntry) :=
  let fromB := f.fromBlock.getD 0
  let toB := f.toBlock.getD p.latestBlock
  if toB < fromB then .error .badFilter
  else .ok (p.logs.filter (logMatches f fromB toB))

/-- A JSON-RPC result value as the dispatcher returns it. -/
inductive RpcValue where
  | str : String → RpcValue
  | nullv : RpcValue
  | receipt : Receipt → RpcValue
  | logList : List LogEntry → RpcValue
  deriving DecidableEq, Repr, Inhabited

/-- Modelled from the spec: `toRawTransactionReceipt` of the formatters module —
the wire encoding of a receipt lookup, a receipt object or null. -/
def toRawTransactionReceipt : Option Receipt → RpcValue
  | some r => .receipt r
  | none => .nullv

/-- Modelled from the spec: `toRawLogResponse` of the formatters module — the
wire encoding of a log entry, the identity at this level of abstraction. -/
def toRawLogResponse : LogEntry → LogEntry := id

/-- The dispatcher `EvmProvider.send`, translated clause by clause from the
source: first the `eth_gasPrice` switch, then the throw of an empty `Error`
when the params array is absent or its first element falsy, then the method
switch over the five remaining handlers; a method matching no case falls off
the switch and resolves to no value (`undefined`). A success carries the
result and the provider state after the call; a thrown error carries no state. -/
def EvmProvider.send (exec : EvmExec) (p : EvmProvider) (method : String)
    (params : Option (List Param)) : Except RpcError (Option RpcValue × EvmProvider) :=
  if method = "eth_gasPrice" then
    .ok (some (.str (numberToHex 50000)), p)
  else if firstTruthy params = false then
    .error (.jsError "")
  else if method = "eth_sendTransaction" then
    match handleSendTransaction exec p (fromRawTransactionRequest (firstParam params)) with
    | .error e => .error e
    | .ok r => .ok (some (.str r.1), r.2)
  else if method = "eth_call" then
    .ok (some (.str (bufferToHex (handleCall exec p (fromRawCallRequest (firstParam params))))), p)
  else if method = "eth_getTransactionReceipt" then
    .ok (some (toRawTransactionReceipt (handleGetTransactionReceipt p (paramToString (firstParam params)))), p)
  else if method = "eth_getCode" then
    .ok (some (.str (bufferToHex (getAccountCode p (addressFromString (paramToString (firstParam params)))))), p)
  else if method = "eth_getLogs" then
    match getLogs p (fromRawLogRequest (firstParam params)) with
    | .error e => .error e
    | .ok ls => .ok (some (.logList (ls.map toRawLogResponse)), p)
  else
    .ok (none, p)

/-- The provider `on` subscription entry point, from the source: it throws
unconditionally. A success would carry the provider state with a registered
subscription; since the call always throws, no subscription is ever registered. -/
def EvmProvider.on (p : EvmProvider) (notification : String) (listener : Nat) :
    Except RpcError EvmProvider :=
  .error (.jsError "Method not implemented.")

/-- The provider `removeListener` entry point, from the source: it throws
unconditionally. -/
def EvmProvider.removeListener (p : EvmProvider) (notification : String) (listener : Nat) :
    Except RpcError EvmProvider :=
  .error (.jsError "Method not implemented.")

/-- The provider `removeAllListeners` entry point, from the source: it throws
unconditionally. -/
def EvmProvider.removeAllListeners (p : EvmProvider) (notification : String) :
    Except RpcError EvmProvider :=
  .error (.jsError "Method not implemented.")

/-- An empty provider state, as initialised with block 0 and no transactions. -/
def emptyProvider : EvmProvider :=
  { world := { accounts := [] }, receipts := [], logs := [], latestBlock := 0, txCount := 0 }

/-- A trivial execution back end that accepts every transaction, used to
instantiate theorems at concrete inputs. -/
def trivialExec : EvmExec :=
  { execTx := fun p _ => some { status := 1, logs := [], gasUsed := 0, newWorld := p.world }
    execCall := fun _ _ => [] }

/-- An execution back end whose pre-flight validation rejects every
transaction, as it does a transaction with a mismatched nonce. -/
def rejectingExec : EvmExec :=
  { execTx := fun _ _ => none
    execCall := fun _ _ => [] }

/-- The fixed-width hex rendering has exactly the requested width. -/
theorem fixedHex_length (k : Nat) : ∀ n, (fixedHex k n).length = k := by
  induction k with
  | zero => intro n; rfl
  | succ k ih => intro n; simp [fixedHex, ih]

/-- Prepending the `0x` marker to a packed character list packs the two marker
characters onto the list. -/
theorem mk_append_0x (l : List Char) : ("0x" ++ String.mk l) = String.mk ('0' :: 'x' :: l) := rfl

/-- Every modelled transaction hash is 66 characters long: the `0x` marker plus
64 hex digits, hence 32 bytes of hex. -/
theorem txHashHex_length (n : Nat) : (txHashHex n).length = 66 := by
  unfold txHashHex
  rw [mk_append_0x, String.mk_length]
  simp [fixedHex_length]

/-- Looking a key up at the head of an association list finds its value. -/
theorem lookup_cons_self {α : Type} [BEq α] [LawfulBEq α] (k : α) (v : Receipt)
    (l : List (α × Receipt)) : ((k, v) :: l).lookup k = some v := by
  simp [List.lookup]

/-- C1 counterexample: `eth_blockNumber` is not one of the implemented methods,
yet `send` called with it and a non-empty params array returns normally,
resolving to no value, instead of failing with `MethodNotFound`. -/
theorem unknownMethod_no_methodNotFound :
    EvmProvider.send trivialExec emptyProvider "eth_blockNumber" (some [Param.str "0x1"]) =
      .ok (none, emptyProvider) := by
  rfl

/-- C1 (amended): for every method outside the implemented table, `send` with a
params array whose first element is truthy returns normally with no value and
the state unchanged, and with absent params or a falsy first element it throws
the empty error; in neither case is `MethodNotFound` raised. -/
theorem unknownMethod_falls_through (exec : EvmExec) (p : EvmProvider) (method : String)
    (params : Option (List Param))
    (hm : method ∉ ["eth_gasPrice", "eth_sendTransaction", "eth_call",
      "eth_getTransactionReceipt", "eth_getCode", "eth_getLogs"]) :
    (firstTruthy params = true →
      EvmProvider.send exec p method params = .ok (none, p)) ∧
    (firstTruthy params = false →
      EvmProvider.send exec p method params = .error (.jsError "")) := by
  simp only [List.mem_cons, List.not_mem_nil, or_false] at hm
  push_neg at hm
  obtain ⟨h1, h2, h3, h4, h5, h6⟩ := hm
  unfold EvmProvider.send
  refine ⟨fun ht => ?_, fun hf => ?_⟩
  · rw [if_neg h1, if_neg (by simp [ht]), if_neg h2, if_neg h3, if_neg h4, if_neg h5, if_neg h6]
  · rw [if_neg h1, if_pos hf]

/-- C1 witness: the amended statement at the concrete method `eth_blockNumber`. -/
theorem unknownMethod_falls_through_witness :
    EvmProvider.send trivialExec emptyProvider "eth_blockNumber" (some [Param.num 7]) =
      .ok (none, emptyProvider) :=
  (unknownMethod_falls_through trivialExec emptyProvider "eth_blockNumber"
    (some [Param.num 7]) (by decide)).1 (by decide)

/-- C2: for every params argument (absent, empty or not), `send` with method
`eth_gasPrice` returns the fixed hex quantity encoding the constant 50000,
namely `0xc350`, without error and without touching the state. -/
theorem gasPrice_constant (exec : EvmExec) (p : EvmProvider) (params : Option (List Param)) :
    EvmProvider.send exec p "eth_gasPrice" params =
      .ok (some (.str (numberToHex 50000)), p) ∧
    numberToHex 50000 = "0xc350" :=
  ⟨rfl, by decide⟩

/-- C3: for every method other than `eth_gasPrice`, when the params array is
absent or its first element falsy, `send` throws an error carrying no message,
whatever the method and for every execution back end (so before any handler). -/
theorem missingParams_throws_empty (exec : EvmExec) (p : EvmProvider) (method : String)
    (params : Option (List Param)) (hm : method ≠ "eth_gasPrice")
    (hf : firstTruthy params = false) :
    EvmProvider.send exec p method params = .error (.jsError "") := by
  unfold EvmProvider.send
  rw [if_neg hm, if_pos hf]

/-- C3 witness: `eth_call` with absent params throws the empty error. -/
theorem missingParams_throws_empty_witness :
    EvmProvider.send trivialExec emptyProvider "eth_call" none = .error (.jsError "") :=
  missingParams_throws_empty trivialExec emptyProvider "eth_call" none (by decide) (by decide)

/-- C4 counterexample: under the spec's transaction processor, a request that
fails pre-flight validation (for instance a nonce mismatch) makes
`eth_sendTransaction` fail with `InvalidTransaction` — no hash is returned and
no receipt appended — refuting the unconditional hash-and-receipt claim. -/
theorem sendTransaction_invalid_no_receipt :
    EvmProvider.send rejectingExec emptyProvider "eth_sendTransaction"
      (some [Param.txReq default]) = .error RpcError.invalidTransaction := rfl

/-- C4 (amended): a transaction request accepted by the processor's pre-flight
validation is executed immediately: `eth_sendTransaction` returns its
0x-prefixed 32-byte transaction hash, and `eth_getTransactionReceipt` on the
resulting provider state returns a non-null receipt carrying that hash; a
request rejected in pre-flight fails with `InvalidTransaction` instead. -/
theorem sendTransaction_then_receipt (exec : EvmExec) (p : EvmProvider) (tx : TxRequest) :
    (∀ res, exec.execTx p tx = some res →
      ∃ h p2 rc,
        EvmProvider.send exec p "eth_sendTransaction" (some [Param.txReq tx]) =
          .ok (some (.str h), p2) ∧
        (∃ s, h = "0x" ++ s) ∧ h.length = 66 ∧
        EvmProvider.send exec p2 "eth_getTransactionReceipt" (some [Param.str h]) =
          .ok (some (.receipt rc), p2) ∧
        rc.transactionHash = h) ∧
    (exec.execTx p tx = none →
      EvmProvider.send exec p "eth_sendTransaction" (some [Param.txReq tx]) =
        .error RpcError.invalidTransaction) := by
  constructor
  · intro res hacc
    have hsend : handleSendTransaction exec p tx =
        .ok (txHashHex p.txCount,
          ⟨res.newWorld,
            (txHashHex p.txCount,
              ⟨txHashHex p.txCount, res.status, p.latestBlock + 1,
                res.logs.map fun l => { l with blockNumber := p.latestBlock + 1 }⟩) :: p.receipts,
            p.logs ++ res.logs.map fun l => { l with blockNumber := p.latestBlock + 1 },
            p.latestBlock + 1, p.txCount + 1⟩) := by
      unfold handleSendTransaction
      rw [hacc]
    refine ⟨txHashHex p.txCount,
      ⟨res.newWorld,
        (txHashHex p.txCount,
          ⟨txHashHex p.txCount, res.status, p.latestBlock + 1,
            res.logs.map fun l => { l with blockNumber := p.latestBlock + 1 }⟩) :: p.receipts,
        p.logs ++ res.logs.map fun l => { l with blockNumber := p.latestBlock + 1 },
        p.latestBlock + 1, p.txCount + 1⟩,
      ⟨txHashHex p.txCount, res.status, p.latestBlock + 1,
        res.logs.map fun l => { l with blockNumber := p.latestBlock + 1 }⟩,
      ?_, ⟨String.mk (fixedHex 64 p.txCount), rfl⟩, txHashHex_length _, ?_, rfl⟩
    · unfold EvmProvider.send
      rw [if_neg (by decide), if_neg (by simp [firstTruthy, Param.truthy]), if_pos rfl]
      simp only [firstParam, fromRawTransactionRequest, hsend]
    · have htr : ¬ firstTruthy (some [Param.str (txHashHex p.txCount)]) = false := by
        simp [firstTruthy, Param.truthy, txHashHex_length]
      unfold EvmProvider.send
      rw [if_neg (by decide), if_neg htr, if_neg (by decide), if_neg (by decide), if_pos rfl]
      simp only [handleGetTransactionReceipt, paramToString, firstParam, lookup_cons_self,
        toRawTransactionReceipt]
  · intro hrej
    unfold EvmProvider.send
    rw [if_neg (by decide), if_neg (by simp [firstTruthy, Param.truthy]), if_pos rfl]
    simp only [firstParam, fromRawTransactionRequest, handleSendTransaction, hrej]

/-- C4 witness: the accepted case of the amended theorem at a concrete back
end, provider state and transaction request. -/
theorem sendTransaction_then_receipt_witness :
    ∃ h p2 rc,
      EvmProvider.send trivialExec emptyProvider "eth_sendTransaction"
        (some [Param.txReq default]) = .ok (some (.str h), p2) ∧
      (∃ s, h = "0x" ++ s) ∧ h.length = 66 ∧
      EvmProvider.send trivialExec p2 "eth_getTransactionReceipt" (some [Param.str h]) =
        .ok (some (.receipt rc), p2) ∧
      rc.transactionHash = h :=
  (sendTransaction_then_receipt trivialExec emptyProvider default).1
    ⟨1, [], 0, ⟨[]⟩⟩ rfl

/-- C5: for every call request (and trailing block parameter), `eth_call`
returns the return data of the execution as a 0x-prefixed hex string and leaves
the provider state — world state and blockchain — unchanged. -/
theorem call_returns_data_pure (exec : EvmExec) (p : EvmProvider) (c : CallRequest)
    (rest : List Param) :
    EvmProvider.send exec p "eth_call" (some (Param.callReq c :: rest)) =
      .ok (some (.str (bufferToHex (handleCall exec p c))), p) ∧
    ∃ s, bufferToHex (handleCall exec p c) = "0x" ++ s :=
  ⟨rfl, ⟨_, rfl⟩⟩

/-- C6: a log filter whose `fromBlock` is strictly greater than its `toBlock`
makes `eth_getLogs` fail with `BadFilter`; no logs are returned. -/
theorem getLogs_badFilter (exec : EvmExec) (p : EvmProvider) (f : LogFilter) (a b : Nat)
    (hfrom : f.fromBlock = some a) (hto : f.toBlock = some b) (hlt : b < a) :
    EvmProvider.send exec p "eth_getLogs" (some [Param.logFilter f]) =
      .error RpcError.badFilter := by
  unfold EvmProvider.send
  rw [if_neg (by decide), if_neg (by simp [firstTruthy, Param.truthy]), if_neg (by decide),
    if_neg (by decide), if_neg (by decide), if_neg (by decide), if_pos rfl]
  simp [getLogs, fromRawLogRequest, firstParam, hfrom, hto, hlt]

/-- C6 witness: the theorem at a concrete filter with `fromBlock = 3 > 1 = toBlock`. -/
theorem getLogs_badFilter_witness :
    EvmProvider.send trivialExec emptyProvider "eth_getLogs"
      (some [Param.logFilter ⟨some 3, some 1, none, []⟩]) = .error RpcError.badFilter :=
  getLogs_badFilter trivialExec emptyProvider _ 3 1 rfl rfl (by decide)

/-- C7: for every notification type and listener, the provider's `on`,
`removeListener` and `removeAllListeners` throw `Method not implemented.`; as
they never succeed, no subscription is ever registered. -/
theorem subscription_wiring_unimplemented (p : EvmProvider) (n : String) (l : Nat) :
    EvmProvider.on p n l = .error (.jsError "Method not implemented.") ∧
    EvmProvider.removeListener p n l = .error (.jsError "Method not implemented.") ∧
    EvmProvider.removeAllListeners p n = .error (.jsError "Method not implemented.") :=
  ⟨rfl, rfl, rfl⟩

/-- An error raised by the contract facade: a JavaScript `Error` with a message,
or the structured `InvalidNumberOfParams` error of the errors module. -/
inductive ContractError where
  | jsErr : String → ContractError
  | invalidNumberOfParams (got expected : Nat) (methodName : Option String)
  deriving DecidableEq, Repr

/-- An argument passed to a generated contract method or an event filter value
(a dynamic JavaScript value; an array value holds the strings a topic filter
enumerates). -/
inductive JsArg where
  | str : String → JsArg
  | num : Int → JsArg
  | boolv : Bool → JsArg
  | strs : List String → JsArg
  | nullv : JsArg
  deriving DecidableEq, Repr, Inhabited

/-- JavaScript truthiness of a filter value: arrays are truthy, `null`, `false`,
`0` and the empty string are falsy. -/
def JsArg.truthy : JsArg → Bool
  | .str s => s.length != 0
  | .num n => n != 0
  | .boolv b => b
  | .strs _ => true
  | .nullv => false

/-- String rendering of a scalar filter value, as handed to the ABI encoder. -/
def JsArg.render : JsArg → String
  | .str s => s
  | .num n => toString n
  | .boolv b => toString b
  | .strs _ => ""
  | .nullv => ""

/-- One declared input of an ABI entry: name, solidity type, indexed flag. -/
structure AbiInput where
  name : String
  type : String
  indexed : Bool
  deriving DecidableEq, Repr, Inhabited

/-- One entry of a contract ABI, reduced to the fields the facade reads. -/
structure AbiDefinition where
  type : String
  name : Option String
  inputs : Option (List AbiInput)
  signature : Option String
  anonymous : Bool
  deriving DecidableEq, Repr, Inhabited

/-- The contract state the facade closes over: the enriched ABI and the
optional deployed address. -/
structure ContractState where
  jsonInterface : List AbiDefinition
  address : Option Nat
  deriving Repr, Inhabited

/-- The transaction object a generated method builds: the ABI entry, the
contract address and exactly the call arguments. -/
structure Tx where
  definition : AbiDefinition
  contractAddress : Nat
  args : List JsArg
  deriving DecidableEq, Repr

/-- A topic slot of a log query: one encoded value, a set of admissible encoded
values, or null (wildcard for an indexed argument that was not filtered on). -/
inductive Topic where
  | value : String → Topic
  | values : List String → Topic
  | nullTopic : Topic
  deriving DecidableEq, Repr, Inhabited

/-- The log query options the facade builds: block range, address, topics, and
the per-argument event filter. -/
structure GetLogOptions where
  fromBlock : Option Nat
  toBlock : Option Nat
  address : Option Nat
  topics : Option (List Topic)
  filter : List (String × JsArg)
  deriving DecidableEq, Repr, Inhabited

/-- A decoded event log: the event name when the log decoded to a named event,
the decoded return values, and the raw log. -/
structure EventLog where
  event : Option String
  returnValues : List (String × String)
  raw : LogEntry
  deriving DecidableEq, Repr, Inhabited

/-- Whether a decoded event carries a truthy event name. -/
def EventLog.isNamed (ev : EventLog) : Bool :=
  (ev.event.getD "").length != 0

/-- The name a decoded event is grouped under (empty for nameless events). -/
def EventLog.eventName (ev : EventLog) : String :=
  ev.event.getD ""

/-- `Contract.executorFactory`, from the source: the generated method first
fails with `No contract address.` when the contract has no address; then, when
inputs are declared and the argument count differs, it delegates to the next
registered overload when one exists and otherwise throws
`InvalidNumberOfParams`; otherwise it builds a `Tx` from the ABI entry, the
address and exactly the given arguments. (The source's `!args` disjunct never
holds: a JavaScript rest parameter is always an array.) -/
def Contract.executorFactory (c : ContractState) (definition : AbiDefinition)
    (nextOverload : Option (List JsArg → Except ContractError Tx)) :
    List JsArg → Except ContractError Tx := fun args =>
  match c.address with
  | none => .error (.jsErr "No contract address.")
  | some addr =>
    if (match definition.inputs with
        | some ins => args.length != ins.length
        | none => false) then
      match nextOverload with
      | some f => f args
      | none => .error (.invalidNumberOfParams args.length
          (definition.inputs.getD []).length definition.name)
    else
      .ok { definition := definition, contractAddress := addr, args := args }

/-- Modelled from the spec: `abi.encodeParameter` of the ABI module (the
contract-binding layer's encoder, outside the core sources) — the ABI encoding
of one typed value, modelled as an injective tagged rendering. -/
def encodeParameter (type : String) (value : String) : String :=
  "enc(" ++ type ++ "," ++ value ++ ")"

/-- The topic built from one indexed input and its filter value, from the
source: a falsy value gives null, an array value encodes each element, a scalar
encodes once. -/
def topicOfFilterValue (inputType : String) (v : JsArg) : Topic :=
  if v.truthy = false then .nullTopic
  else match v with
    | .strs vs => .values (vs.map fun x => encodeParameter inputType x)
    | other => .value (encodeParameter inputType other.render)

/-- `Contract.getEventTopics`, from the source: the event signature (when the
event is not anonymous and has one) followed by one topic per indexed input,
derived from the options' filter. -/
def Contract.getEventTopics (event : AbiDefinition) (options : GetLogOptions) : List Topic :=
  let base := match event.signature with
    | some s => if !event.anonymous && s.length != 0 then [Topic.value s] else []
    | none => []
  let indexedTopics := ((event.inputs.getD []).filter fun i => i.indexed).map fun input =>
    topicOfFilterValue input.type ((options.filter.lookup input.name).getD .nullv)
  base ++ indexedTopics

/-- The message `getLogOptions` throws when the contract address is unset. -/
def addressUnsetMessage : String :=
  "This contract object doesn\x27t have address set yet, please set an address first."

/-- `Contract.getLogOptions`, from the source: fails when the contract address
is unset; for `allevents` (case-insensitive) returns the options with the
contract address; for a named event looks the event up by name or by
0x-signature, failing when absent, and returns the options extended with the
address and the event topics. -/
def Contract.getLogOptions (c : ContractState) (eventName : String)
    (options : GetLogOptions) : Except ContractError GetLogOptions :=
  match c.address with
  | none => .error (.jsErr addressUnsetMessage)
  | some addr =>
    if eventName.toLower = "allevents" then
      .ok { options with address := some addr }
    else
      match c.jsonInterface.find? (fun json =>
        json.type == "event" &&
        (json.name == some eventName ||
         json.signature == some ("0x" ++ (eventName.replace "0x" "")))) with
      | none => .error (.jsErr ("Event \"" ++ eventName ++ "\" doesn\x27t exist in this contract."))
      | some event =>
        .ok { options with address := some addr, topics := some (Contract.getEventTopics event options) }

/-- `Contract.getPastEvents`, from the source: resolves the log options for the
event (failing there when the address is unset, before anything else), then
issues the RPC through `eth.getPastLogs` and decodes each returned log. The RPC
layer and the event decoder live outside the sources, so both are quantified:
the theorems hold for every such back end. -/
def Contract.getPastEvents (getPastLogs : GetLogOptions → List LogEntry)
    (decodeAnyEvent : List AbiDefinition → LogEntry → EventLog)
    (c : ContractState) (event : String) (options : GetLogOptions) :
    Except ContractError (List EventLog) :=
  match Contract.getLogOptions c event options with
  | .error e => .error e
  | .ok logOptions => .ok ((getPastLogs logOptions).map (decodeAnyEvent c.jsonInterface))

/-- The subscription a successful `Contract.on` sets up: the log options the
subscription is created with (`fromBlock` stripped) and the backfill of decoded
past logs emitted before subscribing when `fromBlock` was given. The
event-emitter machinery itself is outside the embedded state. -/
structure ContractSubscription where
  subOptions : GetLogOptions
  backfill : List EventLog
  deriving DecidableEq, Repr

/-- `Contract.on`, from the source: resolves the log options first (failing
when the address is unset, before any request is issued), strips `fromBlock`
for the subscription parameters, and when `fromBlock` was present fetches and
decodes past logs before subscribing. -/
def Contract.on (getPastLogs : GetLogOptions → List LogEntry)
    (decodeAnyEvent : List AbiDefinition → LogEntry → EventLog)
    (c : ContractState) (event : String) (options : GetLogOptions) :
    Except ContractError ContractSubscription :=
  match Contract.getLogOptions c event options with
  | .error e => .error e
  | .ok logOptions =>
    let subLogOptions := { logOptions with fromBlock := none }
    match logOptions.fromBlock with
    | some _ =>
      .ok { subOptions := subLogOptions, backfill := (getPastLogs logOptions).map (decodeAnyEvent c.jsonInterface) }
    | none => .ok { subOptions := subLogOptions, backfill := [] }

/-- A transaction receipt as the facade's formatter sees it: the raw `logs`
field (absent when not an array) and the decoded `events` and `unnamedEvents`
fields the formatter installs. -/
structure TransactionReceipt where
  transactionHash : String
  status : Nat
  logs : Option (List LogEntry)
  events : Option (List (String × List EventLog))
  unnamedEvents : Option (List EventLog)
  deriving DecidableEq, Repr, Inhabited

/-- Append a decoded event to the entry of its name, JavaScript-object style:
an existing key keeps its position and grows its array at the end, a new key is
added at the end of the object. -/
def assocAppend : List (String × List EventLog) → String → EventLog → List (String × List EventLog)
  | [], n, ev => [(n, [ev])]
  | (k, vs) :: rest, n, ev =>
    if k == n then (k, vs ++ [ev]) :: rest else (k, vs) :: assocAppend rest n ev

/-- One step of the decoded-event loop of the receipt formatter: a named event
is appended under its name, a nameless one is appended to the unnamed list. -/
def groupStep (acc : List (String × List EventLog) × List EventLog) (ev : EventLog) :
    List (String × List EventLog) × List EventLog :=
  if ev.isNamed then (assocAppend acc.1 ev.eventName ev, acc.2) else (acc.1, acc.2 ++ [ev])

/-- `Contract.receiptFormatter`, from the source: a receipt whose `logs` field
is not an array is returned unchanged; otherwise every log is decoded, the
named events are grouped under `events` keyed by event name in log order, the
nameless ones are collected in `unnamedEvents`, and the raw `logs` field is
removed. -/
def Contract.receiptFormatter (decodeAnyEvent : List AbiDefinition → LogEntry → EventLog)
    (c : ContractState) (receipt : TransactionReceipt) : TransactionReceipt :=
  match receipt.logs with
  | none => receipt
  | some logs =>
    let decodedEvents := logs.map (decodeAnyEvent c.jsonInterface)
    let acc := decodedEvents.foldl groupStep ([], [])
    { receipt with logs := none, events := some acc.1, unnamedEvents := some acc.2 }

/-- The named decoded events grouped under `n`, in their original order. -/
def eventsNamed (n : String) (l : List EventLog) : List EventLog :=
  l.filter fun ev => ev.isNamed && (ev.eventName == n)

/-- Looking up the key just appended to finds the grown entry. -/
theorem assocAppend_lookup_self (es : List (String × List EventLog)) (n : String) (ev : EventLog) :
    (assocAppend es n ev).lookup n = some ((es.lookup n).getD [] ++ [ev]) := by
  induction es with
  | nil => simp [assocAppend, List.lookup]
  | cons kv rest ih =>
    obtain ⟨k, vs⟩ := kv
    by_cases h : k = n
    · subst h
      simp [assocAppend, List.lookup]
    · have hb : (n == k) = false := beq_eq_false_iff_ne.mpr (Ne.symm h)
      simp only [assocAppend]
      rw [if_neg (by simp [h])]
      simp [List.lookup, hb, ih]

/-- Appending under one key leaves every other key's entry unchanged. -/
theorem assocAppend_lookup_other (es : List (String × List EventLog)) (n m : String)
    (ev : EventLog) (hm : m ≠ n) : (assocAppend es n ev).lookup m = es.lookup m := by
  have hbmn : (m == n) = false := beq_eq_false_iff_ne.mpr hm
  induction es with
  | nil => simp [assocAppend, List.lookup, hbmn]
  | cons kv rest ih =>
    obtain ⟨k, vs⟩ := kv
    by_cases h : k = n
    · subst h
      have hbmk : (m == k) = false := beq_eq_false_iff_ne.mpr hm
      simp only [assocAppend]
      rw [if_pos (by simp)]
      simp [List.lookup, hbmk]
    · simp only [assocAppend]
      rw [if_neg (by simp [h])]
      by_cases hmk : m = k
      · subst hmk
        simp [List.lookup]
      · have hbmk : (m == k) = false := beq_eq_false_iff_ne.mpr hmk
        simp [List.lookup, hbmk, ih]

/-- Folding the event loop over further events grows an existing entry by
exactly the events named with its key, in order. -/
theorem foldl_groupStep_lookup_some (l : List EventLog) :
    ∀ (es : List (String × List EventLog)) (u : List EventLog) (n : String)
      (vs : List EventLog), es.lookup n = some vs →
      (l.foldl groupStep (es, u)).1.lookup n = some (vs ++ eventsNamed n l) := by
  induction l with
  | nil =>
    intro es u n vs h
    simpa [eventsNamed] using h
  | cons ev l ih =>
    intro es u n vs h
    rw [List.foldl_cons]
    by_cases hn : ev.isNamed = true
    · by_cases he : ev.eventName = n
      · subst he
        have h2 : (assocAppend es ev.eventName ev).lookup ev.eventName = some (vs ++ [ev]) := by
          rw [assocAppend_lookup_self, h]
          rfl
        have h3 := ih (assocAppend es ev.eventName ev) u ev.eventName (vs ++ [ev]) h2
        simp only [groupStep, hn, if_true, reduceIte]
        rw [h3]
        simp [eventsNamed, List.filter_cons, hn]
      · have h2 : (assocAppend es ev.eventName ev).lookup n = some vs := by
          rw [assocAppend_lookup_other es ev.eventName n ev (Ne.symm he), h]
        have h3 := ih (assocAppend es ev.eventName ev) u n vs h2
        simp only [groupStep, hn, reduceIte]
        rw [h3]
        simp [eventsNamed, List.filter_cons, he]
    · have hn2 : ev.isNamed = false := by
        revert hn
        cases ev.isNamed <;> simp
      have h3 := ih es (u ++ [ev]) n vs h
      simp only [groupStep, hn2, Bool.false_eq_true, reduceIte]
      rw [h3]
      simp [eventsNamed, List.filter_cons, hn2]

/-- Folding the event loop starting with no entry for a key produces exactly the
events named with that key when there are any, and no entry otherwise. -/
theorem foldl_groupStep_lookup_none (l : List EventLog) :
    ∀ (es : List (String × List EventLog)) (u : List EventLog) (n : String),
      es.lookup n = none →
      (l.foldl groupStep (es, u)).1.lookup n =
        (if (eventsNamed n l).isEmpty then none else some (eventsNamed n l)) := by
  induction l with
  | nil =>
    intro es u n h
    simpa [eventsNamed] using h
  | cons ev l ih =>
    intro es u n h
    rw [List.foldl_cons]
    by_cases hn : ev.isNamed = true
    · by_cases he : ev.eventName = n
      · subst he
        have h2 : (assocAppend es ev.eventName ev).lookup ev.eventName = some [ev] := by
          rw [assocAppend_lookup_self, h]
          rfl
        have h3 := foldl_groupStep_lookup_some l (assocAppend es ev.eventName ev) u
          ev.eventName [ev] h2
        simp only [groupStep, hn, reduceIte]
        rw [h3]
        simp [eventsNamed, List.filter_cons, hn]
      · have h2 : (assocAppend es ev.eventName ev).lookup n = none := by
          rw [assocAppend_lookup_other es ev.eventName n ev (Ne.symm he), h]
        have h3 := ih (assocAppend es ev.eventName ev) u n h2
        simp only [groupStep, hn, reduceIte]
        rw [h3]
        simp [eventsNamed, List.filter_cons, he]
    · have hn2 : ev.isNamed = false := by
        revert hn
        cases ev.isNamed <;> simp
      have h3 := ih es (u ++ [ev]) n h
      simp only [groupStep, hn2, Bool.false_eq_true, reduceIte]
      rw [h3]
      simp [eventsNamed, List.filter_cons, hn2]

/-- The unnamed accumulator of the event loop collects exactly the nameless
decoded events, in order. -/
theorem foldl_groupStep_snd (l : List EventLog) :
    ∀ (es : List (String × List EventLog)) (u : List EventLog),
      (l.foldl groupStep (es, u)).2 = u ++ l.filter (fun ev => !ev.isNamed) := by
  induction l with
  | nil => intro es u; simp
  | cons ev l ih =>
    intro es u
    rw [List.foldl_cons]
    by_cases hn : ev.isNamed = true
    · simp only [groupStep, hn, reduceIte]
      rw [ih]
      simp [List.filter_cons, hn]
    · have hn2 : ev.isNamed = false := by
        revert hn
        cases ev.isNamed <;> simp
      simp only [groupStep, hn2, Bool.false_eq_true, reduceIte]
      rw [ih]
      simp [List.filter_cons, hn2]

/-- C8: on a contract whose address is unset, every generated method throws
`No contract address.` whatever the arguments (so before any argument-count
validation, and also when an overload chain exists), and `getPastEvents` and
event subscription fail with the address-unset error for every RPC back end and
decoder, hence before issuing any RPC request. -/
theorem contract_no_address_throws (ifc : List AbiDefinition) (definition : AbiDefinition)
    (next : Option (List JsArg → Except ContractError Tx)) (args : List JsArg)
    (gpl : GetLogOptions → List LogEntry) (dec : List AbiDefinition → LogEntry → EventLog)
    (ev : String) (opts : GetLogOptions) :
    Contract.executorFactory ⟨ifc, none⟩ definition next args =
      .error (.jsErr "No contract address.") ∧
    Contract.getPastEvents gpl dec ⟨ifc, none⟩ ev opts = .error (.jsErr addressUnsetMessage) ∧
    Contract.on gpl dec ⟨ifc, none⟩ ev opts = .error (.jsErr addressUnsetMessage) :=
  ⟨rfl, rfl, rfl⟩

/-- C9: with the contract address set and inputs declared, an argument count
differing from the declared count delegates to the next registered overload
when one exists and otherwise throws `InvalidNumberOfParams`; a matching count
returns a `Tx` built from the ABI entry, the address and exactly the given
arguments, whatever the overload chain. -/
theorem executor_overloads (ifc : List AbiDefinition) (addr : Nat)
    (definition : AbiDefinition) (ins : List AbiInput)
    (f : List JsArg → Except ContractError Tx) (args : List JsArg)
    (hins : definition.inputs = some ins) :
    (args.length ≠ ins.length →
      Contract.executorFactory ⟨ifc, some addr⟩ definition (some f) args = f args ∧
      Contract.executorFactory ⟨ifc, some addr⟩ definition none args =
        .error (.invalidNumberOfParams args.length ins.length definition.name)) ∧
    (args.length = ins.length →
      ∀ next, Contract.executorFactory ⟨ifc, some addr⟩ definition next args =
        .ok ⟨definition, addr, args⟩) := by
  refine ⟨fun hne => ?_, fun heq next => ?_⟩
  · constructor <;> simp [Contract.executorFactory, hins, hne]
  · cases next <;> simp [Contract.executorFactory, hins, heq]

/-- A one-input ABI entry used to instantiate the overload theorem. -/
def abiDef0 : AbiDefinition :=
  { type := "function", name := some "foo",
    inputs := some [{ name := "x", type := "uint256", indexed := false }],
    signature := none, anonymous := false }

/-- C9 witness: the matching-count case at one concrete argument. -/
theorem executor_overloads_witness :
    Contract.executorFactory ⟨[], some 5⟩ abiDef0 none [JsArg.num 1] =
      .ok ⟨abiDef0, 5, [JsArg.num 1]⟩ :=
  ((executor_overloads [] 5 abiDef0 [{ name := "x", type := "uint256", indexed := false }]
    (fun _ => .error (.jsErr "")) [JsArg.num 1] rfl).2 rfl) none

/-- C10: a receipt whose `logs` field is not an array is returned unchanged by
the receipt formatter; one whose `logs` is an array gets every log decoded, the
named events grouped under `events` keyed by event name in original log order,
the nameless ones collected in `unnamedEvents` in order, the raw `logs` field
removed, and every other field kept. -/
theorem receiptFormatter_groups_events (dec : List AbiDefinition → LogEntry → EventLog)
    (c : ContractState) (receipt : TransactionReceipt) :
    (receipt.logs = none → Contract.receiptFormatter dec c receipt = receipt) ∧
    (∀ logs, receipt.logs = some logs →
      (Contract.receiptFormatter dec c receipt).logs = none ∧
      (Contract.receiptFormatter dec c receipt).transactionHash = receipt.transactionHash ∧
      (Contract.receiptFormatter dec c receipt).status = receipt.status ∧
      (∃ evs, (Contract.receiptFormatter dec c receipt).events = some evs ∧
        ∀ n, evs.lookup n =
          (if (eventsNamed n (logs.map (dec c.jsonInterface))).isEmpty then none
           else some (eventsNamed n (logs.map (dec c.jsonInterface))))) ∧
      (Contract.receiptFormatter dec c receipt).unnamedEvents =
        some ((logs.map (dec c.jsonInterface)).filter fun ev => !ev.isNamed)) := by
  constructor
  · intro h
    simp [Contract.receiptFormatter, h]
  · intro logs h
    have hre : Contract.receiptFormatter dec c receipt =
        ⟨receipt.transactionHash, receipt.status, none,
          some ((logs.map (dec c.jsonInterface)).foldl groupStep ([], [])).1,
          some ((logs.map (dec c.jsonInterface)).foldl groupStep ([], [])).2⟩ := by
      simp [Contract.receiptFormatter, h]
    rw [hre]
    refine ⟨rfl, rfl, rfl,
      ⟨((logs.map (dec c.jsonInterface)).foldl groupStep ([], [])).1, rfl, fun n => ?_⟩, ?_⟩
    · exact foldl_groupStep_lookup_none (logs.map (dec c.jsonInterface)) [] [] n rfl
    · show some ((logs.map (dec c.jsonInterface)).foldl groupStep ([], [])).2 = _
      rw [foldl_groupStep_snd]
      rfl

/-- A decoder used to instantiate the formatter theorem: every log decodes to a
`Transfer` event. -/
def decode0 : List AbiDefinition → LogEntry → EventLog :=
  fun _ l => { event := some "Transfer", returnValues := [], raw := l }

/-- A concrete receipt with one raw log. -/
def receipt0 : TransactionReceipt :=
  { transactionHash := "0xabc", status := 1,
    logs := some [{ address := 1, topics := [], data := [], blockNumber := 0, logIndex := 0 }],
    events := none, unnamedEvents := none }

/-- C10 witness: the formatter at one concrete receipt whose single log decodes
to a named event. -/
theorem receiptFormatter_groups_events_witness :
    (Contract.receiptFormatter decode0 ⟨[], none⟩ receipt0).logs = none ∧
    (Contract.receiptFormatter decode0 ⟨[], none⟩ receipt0).unnamedEvents = some [] := by
  have h := (receiptFormatter_groups_events decode0 ⟨[], none⟩ receipt0).2
    [{ address := 1, topics := [], data := [], blockNumber := 0, logIndex := 0 }] rfl
  refine ⟨h.1, ?_⟩
  rw [h.2.2.2.2]
  decide
